import Mathlib

/-!
Shallow embedding of the garth-mcp-server tool layer
(`src/garth_mcp_server/__init__.py` and `src/garth_mcp_server/utils.py`).

The server wraps every tool in the `requires_garth_session` decorator, then
either delegates to the data-class loaders of the external client or to its generic
`connectapi` call, reshaping the JSON response.  The remote responses are
modelled as explicit inputs of the embedded functions; Python dictionaries are
modelled as association lists in insertion order (a Python dict never holds a
key twice, which appears as a `Nodup` hypothesis on the key list where the
behaviour depends on it); a raised exception is modelled by `Option`/`Except`
failure.
-/

namespace GarthMcp

/-! ### Python-style JSON values

`PyVal` models the JSON values moved around by the tools: dictionaries keep
their entries in insertion order. -/

inductive PyVal : Type where
  | str (s : String)
  | num (n : Int)
  | bool (b : Bool)
  | null
  | dict (entries : List (String × PyVal))
  | list (items : List PyVal)
deriving Repr

/-- A record (Python dict) as it appears in an activities response. -/
abbrev Rec := List (String × PyVal)

/-- Python `key in data` on a dict modelled as an association list. -/
def hasKeyR (r : Rec) (k : String) : Bool :=
  r.any (fun p => p.1 == k)

/-! ### `requires_garth_session` (decorator, `__init__.py` lines 19-28)

```python
def requires_garth_session(func):
    @wraps(func)
    def wrapper(*args, **kwargs):
        token = os.getenv("GARTH_TOKEN")
        if not token:
            return "You must set the GARTH_TOKEN environment variable to use this tool"
        garth.client.loads(token)
        return func(*args, **kwargs)
    return wrapper
```

The environment lookup is an explicit `Option String` input (`none` = unset).
Side effects of the wrapper are recorded as an event trace:
`loads t` is the call `garth.client.loads(token)`, `call` is the invocation of
the wrapped tool body. -/

inductive SessionEvent : Type where
  | loads (token : String)
  | call
deriving DecidableEq, Repr

/-- Message returned when no usable token is configured. -/
def garthTokenMsg : String :=
  "You must set the GARTH_TOKEN environment variable to use this tool"

/-- Result of a wrapped tool call: the event trace plus either the plain
error string (`Sum.inl`) or the result of the wrapped function (`Sum.inr`). -/
structure WrapperResult (α : Type) : Type where
  events : List SessionEvent
  result : Sum String α
deriving DecidableEq, Repr

/-- Python truthiness of `os.getenv("GARTH_TOKEN")`: `None` and the empty
string are falsy, every other string is truthy (`if not token:`). -/
def tokenTruthy : Option String → Bool
  | Option.none => false
  | Option.some s => !(s == "")

/-- The wrapper produced by the decorator: check the environment variable, short-circuit
with the message when it is falsy, otherwise load the session and run the
wrapped function. -/
def requires_garth_session {α : Type} (env : Option String) (func : Unit → α) :
    WrapperResult α :=
  match env with
  | Option.none => ⟨[], Sum.inl garthTokenMsg⟩
  | Option.some t =>
    if t == "" then ⟨[], Sum.inl garthTokenMsg⟩
    else ⟨[SessionEvent.loads t, SessionEvent.call], Sum.inr (func ())⟩

/-! ### `remove_keys_if_exists` (`utils.py` lines 6-35)

```python
def remove_keys_if_exists(data, keys_to_remove):
    if isinstance(data, dict):
        for key in keys_to_remove:
            data.pop(key, None)
        return data
    elif isinstance(data, list):
        for item in data:
            if isinstance(item, dict):
                for key in keys_to_remove:
                    item.pop(key, None)
        return data
    else:
        return data
```
-/

/-- `data.pop(key, None)` on a dict: remove the entry holding `key` when it is
present, never fail. -/
def popIfExists (es : List (String × PyVal)) (k : String) :
    List (String × PyVal) :=
  es.eraseP (fun p => p.1 == k)

/-- The `for key in keys_to_remove: data.pop(key, None)` loop. -/
def removeKeysFromEntries (es : List (String × PyVal)) (keys : List String) :
    List (String × PyVal) :=
  keys.foldl popIfExists es

/-- `remove_keys_if_exists`, value-level semantics. -/
def remove_keys_if_exists (data : PyVal) (keys_to_remove : List String) :
    PyVal :=
  match data with
  | PyVal.dict es => PyVal.dict (removeKeysFromEntries es keys_to_remove)
  | PyVal.list items =>
    PyVal.list (items.map (fun item =>
      match item with
      | PyVal.dict es => PyVal.dict (removeKeysFromEntries es keys_to_remove)
      | other => other))
  | other => other

/-! ### `user_profile_statistics` (`__init__.py` lines 109-246)

The tool issues three generic API calls and merges them:
1. `userstats-service/statistics/{display_name}` → `activities`,
2. `userstats-service/statistics/previousDays/{display_name}` →
   `last_12_months`,
3. `usersummary-service/stats/connectLifetimeTotals/{display_name}` →
   the inner `lifetime_totals` (wrapped in `try`/`except Exception`).

The embedded function receives `userMetrics[0]` of the first two responses
and the third response as an `Except` value (a raised exception is
`Except.error`); JSON numbers are rationals. -/

/-- The `userMetrics[0]` fields read from the first two statistics calls. -/
structure UserMetrics : Type where
  totalActivities : ℚ
  totalDistance : ℚ
  totalDuration : ℚ
  totalCalories : ℚ
  totalElevationGain : ℚ
deriving DecidableEq, Repr

/-- The fields read from the `connectLifetimeTotals` response. -/
structure LifetimeTotalsData : Type where
  totalDistance : ℚ
  totalSteps : ℚ
  totalCalories : ℚ
  totalGoalsMetInDays : ℚ
  totalActiveDays : ℚ
  totalWellnessDistance : ℚ
  totalStepCalories : ℚ
deriving DecidableEq, Repr

/-- Python `round(x, 2)` on an exact rational: round to two decimal places,
ties to the even hundredth, as Python rounds. -/
def pyRound2 (q : ℚ) : ℚ :=
  let y : ℚ := q * 100
  let f : ℤ := ⌊y⌋
  let r : ℚ := y - (f : ℚ)
  let n : ℤ :=
    if r < 1 / 2 then f
    else if 1 / 2 < r then f + 1
    else if f % 2 = 0 then f else f + 1
  (n : ℚ) / 100

/-- The dict built for `activities` (lines 179-191) and, identically, for
`last_12_months_totals` (lines 199-213): five base entries in literal order,
then `total_distance_km` when `total_distance >= 1000` and
`total_duration_hours` when `total_duration >= 3600`. -/
def mkPeriodTotals (m : UserMetrics) : List (String × ℚ) :=
  let base : List (String × ℚ) :=
    [("total_activities", m.totalActivities),
     ("total_distance", m.totalDistance),
     ("total_duration", m.totalDuration),
     ("total_calories", m.totalCalories),
     ("total_elevation_gain", m.totalElevationGain)]
  let withKm : List (String × ℚ) :=
    if 1000 ≤ m.totalDistance then
      base ++ [("total_distance_km", pyRound2 (m.totalDistance / 1000))]
    else base
  if 3600 ≤ m.totalDuration then
    withKm ++ [("total_duration_hours", pyRound2 (m.totalDuration / 3600))]
  else withKm

/-- The dict built from the `connectLifetimeTotals` response (lines 225-235):
both `_km` entries are written unconditionally. -/
def mkLifetimeTotals (lt : LifetimeTotalsData) : List (String × ℚ) :=
  [("total_distance", lt.totalDistance),
   ("total_distance_km", pyRound2 (lt.totalDistance / 1000)),
   ("total_steps", lt.totalSteps),
   ("total_calories", lt.totalCalories),
   ("total_goals_met_in_days", lt.totalGoalsMetInDays),
   ("total_active_days", lt.totalActiveDays),
   ("total_wellness_distance", lt.totalWellnessDistance),
   ("total_wellness_distance_km", pyRound2 (lt.totalWellnessDistance / 1000)),
   ("total_step_calories", lt.totalStepCalories)]

/-- Nested JSON value returned by the statistics aggregator: a number or an
object whose fields are kept in insertion order. -/
inductive StatsVal : Type where
  | num (q : ℚ)
  | obj (fields : List (String × StatsVal))

/-- Lift a flat rational dict into a `StatsVal` object body. -/
def statsNum (es : List (String × ℚ)) : List (String × StatsVal) :=
  es.map (fun p => (p.1, StatsVal.num p.2))

/-- The merged structure returned by the tool (lines 238-246):

```python
stats = {
    "lifetime_totals": {
        "activities": activities,
        "lifetime_totals": lifetime_totals,
    },
    "last_12_months": last_12_months_totals,
}
```

When the third call raises, `lifetime_totals = {}` (lines 216-222). -/
def user_profile_statistics (m prev : UserMetrics)
    (ltRes : Except Unit LifetimeTotalsData) : StatsVal :=
  let activities := mkPeriodTotals m
  let last_12_months_totals := mkPeriodTotals prev
  let lifetime_totals : List (String × ℚ) :=
    match ltRes with
    | Except.error _ => []
    | Except.ok lt => mkLifetimeTotals lt
  StatsVal.obj
    [("lifetime_totals", StatsVal.obj
        [("activities", StatsVal.obj (statsNum activities)),
         ("lifetime_totals", StatsVal.obj (statsNum lifetime_totals))]),
     ("last_12_months", StatsVal.obj (statsNum last_12_months_totals))]

mutual

/-- Field lists of every object node of a `StatsVal` tree, outermost first. -/
def StatsVal.allObjFields : StatsVal → List (List (String × StatsVal))
  | StatsVal.num _ => []
  | StatsVal.obj fs => fs :: allObjFieldsL fs

/-- Helper of `StatsVal.allObjFields` over a field list. -/
def allObjFieldsL : List (String × StatsVal) → List (List (String × StatsVal))
  | [] => []
  | p :: rest => StatsVal.allObjFields p.2 ++ allObjFieldsL rest

end

/-- Key presence in a `StatsVal` object body. -/
def hasKeyS (fields : List (String × StatsVal)) (k : String) : Bool :=
  fields.any (fun p => p.1 == k)

/-- The numeric value stored under `k`, if any. -/
def numAt (fields : List (String × StatsVal)) (k : String) : Option ℚ :=
  match fields.lookup k with
  | Option.some (StatsVal.num q) => Option.some q
  | _ => Option.none

/-- `true` iff `k` holds a number that is at least `c`. -/
def atLeastAt (fields : List (String × StatsVal)) (k : String) (c : ℚ) :
    Bool :=
  match numAt fields k with
  | Option.some q => decide (c ≤ q)
  | Option.none => false

/-- The per-object condition of claim C1: the kilometre field is present
exactly when `total_distance` is at least 1000 and the hours field exactly
when `total_duration` is at least 3600. -/
def kmHourCond (fields : List (String × StatsVal)) : Prop :=
  hasKeyS fields "total_distance_km" = atLeastAt fields "total_distance" 1000
  ∧ hasKeyS fields "total_duration_hours"
      = atLeastAt fields "total_duration" 3600

/-- Claim C1 as stated: every object of the returned structure satisfies
`kmHourCond`. -/
def C1Claim (m prev : UserMetrics) (ltRes : Except Unit LifetimeTotalsData) :
    Prop :=
  ∀ fs ∈ (user_profile_statistics m prev ltRes).allObjFields, kmHourCond fs

/-- The fields of the object stored under `k`, `[]` when `k` is absent or not
an object. -/
def subObjAt (fields : List (String × StatsVal)) (k : String) :
    List (String × StatsVal) :=
  match fields.lookup k with
  | Option.some (StatsVal.obj fs) => fs
  | _ => []

/-- Top-level fields of the aggregator output. -/
def topFields : StatsVal → List (String × StatsVal)
  | StatsVal.obj fs => fs
  | _ => []

/-! ### `get_activities` (`__init__.py` lines 384-423)

After `garth.connectapi(...)` and `assert isinstance(activities, list)`,
each record has five keys popped without a default:

```python
for activity in activities:
    activity.pop("userRoles")
    activity.pop("ownerDisplayName")
    activity.pop("ownerProfileImageUrlSmall")
    activity.pop("ownerProfileImageUrlMedium")
    activity.pop("ownerProfileImageUrlLarge")
```

`pop` without a default raises `KeyError` when the key is absent, modelled as
`Option.none`. -/

/-- The five keys popped from every activity record, in pop order. -/
def fiveKeys : List String :=
  ["userRoles", "ownerDisplayName", "ownerProfileImageUrlSmall",
   "ownerProfileImageUrlMedium", "ownerProfileImageUrlLarge"]

/-- `activity.pop(key)` without a default: `Option.none` is the `KeyError`. -/
def popStrict (k : String) (r : Rec) : Option Rec :=
  if hasKeyR r k then Option.some (r.eraseP (fun p => p.1 == k))
  else Option.none

/-- The five pops of one loop iteration, in order. -/
def scrubActivity (r : Rec) : Option Rec := do
  let r ← popStrict "userRoles" r
  let r ← popStrict "ownerDisplayName" r
  let r ← popStrict "ownerProfileImageUrlSmall" r
  let r ← popStrict "ownerProfileImageUrlMedium" r
  let r ← popStrict "ownerProfileImageUrlLarge" r
  return r

/-- The loop over all records: the first `KeyError` aborts the tool. -/
def scrubAll : List Rec → Option (List Rec)
  | [] => Option.some []
  | r :: rest =>
    match scrubActivity r with
    | Option.none => Option.none
    | Option.some r1 =>
      match scrubAll rest with
      | Option.none => Option.none
      | Option.some rest1 => Option.some (r1 :: rest1)

/-- `get_activities` applied to the list returned by the endpoint. -/
def get_activities (activities : List Rec) : Option (List Rec) :=
  scrubAll activities

/-! ### `nightly_sleep` (`__init__.py` lines 576-594)

```python
sleep_data = garth.SleepData.list(end_date, nights)
if not sleep_movement:
    for night in sleep_data:
        if hasattr(night, "sleep_movement"):
            del night.sleep_movement
return sleep_data
```

A night is its remaining payload (`summary`) plus an optional
`sleep_movement` attribute; `hasattr` is `Option.isSome` and `del` sets the
attribute to `Option.none`. -/

structure SleepNight (α μ : Type) : Type where
  summary : α
  sleep_movement : Option μ
deriving DecidableEq, Repr

/-- One loop body: `if hasattr(night, "sleep_movement"): del night.sleep_movement`. -/
def scrubNight {α μ : Type} (night : SleepNight α μ) : SleepNight α μ :=
  if night.sleep_movement.isSome then { night with sleep_movement := Option.none }
  else night

/-- `nightly_sleep` applied to the loaded records. -/
def nightly_sleep {α μ : Type} (sleep_data : List (SleepNight α μ))
    (sleep_movement : Bool := false) : List (SleepNight α μ) :=
  if sleep_movement then sleep_data
  else sleep_data.map scrubNight

/-! ### Reference-level view of `remove_keys_if_exists`

The Python function mutates `data` in place and ends with `return data`: the
caller gets back the very reference it passed.  A small object store makes
that observable: the argument is an address, the object stored there is
replaced by its reshaped value, and the same address is returned. -/

/-- Object uniqueness invariant of Python dicts, at the depths
`remove_keys_if_exists` touches: the top dict, or each dict element of a top
list, holds no key twice. -/
def pyWF : PyVal → Bool
  | PyVal.dict es => decide ((es.map Prod.fst).Nodup)
  | PyVal.list items =>
    items.all (fun item =>
      match item with
      | PyVal.dict es => decide ((es.map Prod.fst).Nodup)
      | _ => true)
  | _ => true

/-- An object store: addresses mapped to values. -/
abbrev Heap := List (Nat × PyVal)

/-- Dereference an address. -/
def heapGet (h : Heap) (a : Nat) : Option PyVal :=
  h.lookup a

/-- Overwrite the object at an address. -/
def heapUpdate (h : Heap) (a : Nat) (v : PyVal) : Heap :=
  h.map (fun p => if p.1 = a then (a, v) else p)

/-- `remove_keys_if_exists` on a reference: mutate the object in place and
`return data` (the same address). -/
def remove_keys_if_exists_ref (h : Heap) (addr : Nat)
    (keys_to_remove : List String) : Heap × Nat :=
  match heapGet h addr with
  | Option.some v =>
    (heapUpdate h addr (remove_keys_if_exists v keys_to_remove), addr)
  | Option.none => (h, addr)




/-- Sequential `pop` (without default) of a list of keys. -/
def popSeq (keys : List String) (r : Rec) : Option Rec :=
  match keys with
  | [] => Option.some r
  | k :: ks => (popStrict k r).bind (popSeq ks)

/-- The element-wise reshaping of a list input. -/
def removeKeysItem (keys : List String) (item : PyVal) : PyVal :=
  match item with
  | PyVal.dict es => PyVal.dict (removeKeysFromEntries es keys)
  | other => other

instance (fields : List (String × StatsVal)) : Decidable (kmHourCond fields) := by
  unfold kmHourCond
  infer_instance

instance (m prev : UserMetrics) (ltRes : Except Unit LifetimeTotalsData) :
    Decidable (C1Claim m prev ltRes) := by
  unfold C1Claim
  infer_instance

/-- The `activities` sub-object of the aggregator output. -/
def upsActivitiesFields (m prev : UserMetrics)
    (ltRes : Except Unit LifetimeTotalsData) : List (String × StatsVal) :=
  subObjAt
    (subObjAt (topFields (user_profile_statistics m prev ltRes))
      "lifetime_totals") "activities"

/-- The inner `lifetime_totals` sub-object of the aggregator output. -/
def upsLifetimeFields (m prev : UserMetrics)
    (ltRes : Except Unit LifetimeTotalsData) : List (String × StatsVal) :=
  subObjAt
    (subObjAt (topFields (user_profile_statistics m prev ltRes))
      "lifetime_totals") "lifetime_totals"

/-- The `last_12_months` sub-object of the aggregator output. -/
def upsLast12Fields (m prev : UserMetrics)
    (ltRes : Except Unit LifetimeTotalsData) : List (String × StatsVal) :=
  subObjAt (topFields (user_profile_statistics m prev ltRes)) "last_12_months"

/-- Claim C2 as stated (specialised to `Nat`-valued tools): whenever the
environment variable is present, the wrapper loads the token and then runs
the wrapped function. -/
def C2Claim : Prop :=
  ∀ (env : Option String) (func : Unit → Nat), env.isSome = true →
    ∃ t, env = Option.some t ∧
      requires_garth_session env func
        = ⟨[SessionEvent.loads t, SessionEvent.call], Sum.inr (func ())⟩

/-! ### Association-list lemmas shared by the dict-reshaping proofs -/

/-- On a dict holding no key twice, removing the entry of `k` is filtering
`k` out. -/
theorem erasePKey_eq_filter {β : Type} (k : String) (l : List (String × β))
    (hnd : (l.map Prod.fst).Nodup) :
    l.eraseP (fun p => p.1 == k) = l.filter (fun p => !(p.1 == k)) := by
  induction l with
  | nil => rfl
  | cons a t ih =>
    rw [List.map_cons, List.nodup_cons] at hnd
    by_cases h : a.1 = k
    · have h1 : ∀ p ∈ t, (!(p.1 == k)) = true := by
        intro p hp
        have hne : p.1 ≠ k := by
          intro hpk
          exact hnd.1 (by rw [h, ← hpk]; exact List.mem_map_of_mem Prod.fst hp)
        simp [hne]
      simp [List.eraseP_cons, h, List.filter_cons, List.filter_eq_self.mpr h1]
    · simp [List.eraseP_cons, h, List.filter_cons, ih hnd.2]

/-- Key presence is monotone along sublists. -/
theorem hasKeyR_of_sublist {r s : Rec} (hs : s.Sublist r) {k : String}
    (h : hasKeyR s k = true) : hasKeyR r k = true := by
  rw [hasKeyR, List.any_eq_true] at h ⊢
  obtain ⟨p, hp, hpk⟩ := h
  exact ⟨p, hs.subset hp, hpk⟩

/-- Filtering out key `k` keeps every other key. -/
theorem hasKeyR_filter_ne {r : Rec} {k1 k : String} (hne : k1 ≠ k)
    (h : hasKeyR r k1 = true) :
    hasKeyR (r.filter (fun p => !(p.1 == k))) k1 = true := by
  rw [hasKeyR, List.any_eq_true] at h ⊢
  obtain ⟨p, hp, hpk⟩ := h
  have hp1 : p.1 = k1 := by simpa using hpk
  refine ⟨p, List.mem_filter.mpr ⟨hp, ?_⟩, hpk⟩
  simp [hp1, hne]

/-- Filtering a dict keeps its keys `Nodup`. -/
theorem keysNodup_filter {β : Type} {l : List (String × β)}
    (hnd : (l.map Prod.fst).Nodup) (q : String × β → Bool) :
    ((l.filter q).map Prod.fst).Nodup :=
  List.Nodup.sublist ((l.filter_sublist).map Prod.fst) hnd

/-! ### `get_activities` proofs -/


theorem scrubActivity_eq_popSeq (r : Rec) :
    scrubActivity r = popSeq fiveKeys r := rfl

theorem popStrict_some_imp {k : String} {r s : Rec}
    (h : popStrict k r = Option.some s) :
    hasKeyR r k = true ∧ s.Sublist r := by
  by_cases hk : hasKeyR r k = true
  · rw [popStrict, if_pos hk, Option.some_inj] at h
    exact ⟨hk, h ▸ List.eraseP_sublist r⟩
  · rw [popStrict, if_neg hk] at h
    exact absurd h (by simp)

theorem popSeq_some_imp :
    ∀ {keys : List String} {r s : Rec}, popSeq keys r = Option.some s →
      ∀ k ∈ keys, hasKeyR r k = true := by
  intro keys
  induction keys with
  | nil => intro r s _ k hk; simp at hk
  | cons k0 ks ih =>
    intro r s h k hk
    rw [popSeq] at h
    cases hp : popStrict k0 r with
    | none => rw [hp, Option.none_bind] at h; exact absurd h (by simp)
    | some r1 =>
      rw [hp, Option.some_bind] at h
      obtain ⟨hk0, hsub⟩ := popStrict_some_imp hp
      rcases List.mem_cons.mp hk with rfl | hmem
      · exact hk0
      · exact hasKeyR_of_sublist hsub (ih h k hmem)

theorem popSeq_eq_filter (keys : List String) (hknd : keys.Nodup) :
    ∀ r : Rec, (r.map Prod.fst).Nodup → (∀ k ∈ keys, hasKeyR r k = true) →
      popSeq keys r = Option.some (r.filter (fun p => !(keys.contains p.1))) := by
  induction keys with
  | nil =>
    intro r _ _
    have hf : List.filter (fun p : String × PyVal => !(([] : List String).contains p.1)) r
        = r :=
      List.filter_eq_self.mpr (fun p _ => rfl)
    rw [popSeq, hf]
  | cons k ks ih =>
    intro r hnd hall
    rw [List.nodup_cons] at hknd
    have hk : hasKeyR r k = true := hall k (List.mem_cons_self k ks)
    have hpop : popStrict k r
        = Option.some (r.filter (fun p => !(p.1 == k))) := by
      rw [popStrict, if_pos hk, erasePKey_eq_filter k r hnd]
    rw [popSeq, hpop, Option.some_bind]
    have hnd1 := keysNodup_filter hnd (fun p => !(p.1 == k))
    have hall1 : ∀ k1 ∈ ks,
        hasKeyR (r.filter (fun p => !(p.1 == k))) k1 = true := by
      intro k1 hk1
      have hne : k1 ≠ k := fun hkk => hknd.1 (hkk ▸ hk1)
      exact hasKeyR_filter_ne hne (hall k1 (List.mem_cons_of_mem k hk1))
    rw [ih hknd.2 _ hnd1 hall1]
    congr 1
    rw [List.filter_filter]
    refine List.filter_congr ?_
    intro p _
    rw [List.contains_cons, Bool.not_or, Bool.and_comm]

/-- Claim C4: when every activity record returned by the endpoint is a
well-formed dict (no repeated key) containing the five popped keys,
`get_activities` returns the same list of records with exactly those five
keys removed from each record: every other key-value pair, their relative
order, and the number and order of records are unchanged (the result is the
pointwise filter that drops only the five keys). -/
theorem get_activities_strips_fixed_keys (acts : List Rec)
    (hnd : ∀ r ∈ acts, (r.map Prod.fst).Nodup)
    (hall : ∀ r ∈ acts, ∀ k ∈ fiveKeys, hasKeyR r k = true) :
    get_activities acts
      = Option.some
          (acts.map (fun r => r.filter (fun p => !(fiveKeys.contains p.1)))) := by
  induction acts with
  | nil => rfl
  | cons r rest ih =>
    have h1 : scrubActivity r
        = Option.some (r.filter (fun p => !(fiveKeys.contains p.1))) := by
      rw [scrubActivity_eq_popSeq]
      exact popSeq_eq_filter fiveKeys (by decide) r
        (hnd r (List.mem_cons_self r rest))
        (hall r (List.mem_cons_self r rest))
    have h2 : get_activities rest
        = Option.some
            (rest.map (fun r => r.filter (fun p => !(fiveKeys.contains p.1)))) :=
      ih (fun s hs => hnd s (List.mem_cons_of_mem r hs))
        (fun s hs => hall s (List.mem_cons_of_mem r hs))
    rw [get_activities, scrubAll, h1]
    rw [get_activities] at h2
    rw [h2, List.map_cons]

/-- Witness for C4 at a concrete two-record response. -/
theorem get_activities_strips_fixed_keys_witness :
    get_activities
      [[("userRoles", PyVal.null), ("ownerDisplayName", PyVal.str "o"),
        ("ownerProfileImageUrlSmall", PyVal.null),
        ("ownerProfileImageUrlMedium", PyVal.null),
        ("ownerProfileImageUrlLarge", PyVal.null),
        ("activityId", PyVal.num 7), ("distance", PyVal.num 5000)],
       [("activityId", PyVal.num 8), ("userRoles", PyVal.list []),
        ("ownerDisplayName", PyVal.str "p"),
        ("ownerProfileImageUrlSmall", PyVal.null),
        ("ownerProfileImageUrlMedium", PyVal.null),
        ("ownerProfileImageUrlLarge", PyVal.null)]]
      = Option.some
          [[("activityId", PyVal.num 7), ("distance", PyVal.num 5000)],
           [("activityId", PyVal.num 8)]] :=
  get_activities_strips_fixed_keys _ (by decide) (by decide)

/-- Claim C8: an activity record lacking any of the five popped keys makes
`get_activities` fail with a `KeyError` (modelled as `Option.none`) instead
of returning a result. -/
theorem get_activities_missing_key_raises (acts : List Rec)
    (h : ∃ r ∈ acts, ∃ k ∈ fiveKeys, hasKeyR r k = false) :
    get_activities acts = Option.none := by
  induction acts with
  | nil =>
    obtain ⟨r, hr, _⟩ := h
    exact absurd hr (by simp)
  | cons r0 rest ih =>
    obtain ⟨r, hr, k, hk, hfalse⟩ := h
    rw [get_activities, scrubAll]
    rcases List.mem_cons.mp hr with rfl | hmem
    · cases hs : scrubActivity r with
      | none => rfl
      | some s =>
        have htrue := popSeq_some_imp (scrubActivity_eq_popSeq r ▸ hs) k hk
        rw [htrue] at hfalse
        exact absurd hfalse (by simp)
    · cases hs : scrubActivity r0 with
      | none => rfl
      | some s =>
        have hrest : scrubAll rest = Option.none :=
          ih ⟨r, hmem, k, hk, hfalse⟩
        rw [hrest]

/-- Witness for C8: a record without `userRoles` aborts the tool. -/
theorem get_activities_missing_key_raises_witness :
    get_activities
      [[("activityId", PyVal.num 7), ("ownerDisplayName", PyVal.str "o")]]
      = Option.none :=
  get_activities_missing_key_raises _ (by decide)


/-! ### `remove_keys_if_exists` proofs -/

/-- The key-removal loop on a dict with no repeated key filters out exactly
the listed keys. -/
theorem removeKeys_eq_filter (keys : List String) :
    ∀ es : List (String × PyVal), (es.map Prod.fst).Nodup →
      removeKeysFromEntries es keys
        = es.filter (fun p => !(keys.contains p.1)) := by
  induction keys with
  | nil =>
    intro es _
    have hf : List.filter
        (fun p : String × PyVal => !(([] : List String).contains p.1)) es = es :=
      List.filter_eq_self.mpr (fun p _ => rfl)
    rw [removeKeysFromEntries, List.foldl_nil, hf]
  | cons k ks ih =>
    intro es hnd
    have hpop : popIfExists es k = es.filter (fun p => !(p.1 == k)) := by
      rw [popIfExists, erasePKey_eq_filter k es hnd]
    have hnd1 := keysNodup_filter hnd (fun p => !(p.1 == k))
    rw [removeKeysFromEntries, List.foldl_cons, hpop]
    rw [show List.foldl popIfExists (es.filter (fun p => !(p.1 == k))) ks
          = removeKeysFromEntries (es.filter (fun p => !(p.1 == k))) ks from rfl]
    rw [ih _ hnd1, List.filter_filter]
    refine List.filter_congr ?_
    intro p _
    rw [List.contains_cons, Bool.not_or, Bool.and_comm]

/-- `remove_keys_if_exists` on a well-formed dict. -/
theorem remove_keys_dict_eq (es : List (String × PyVal)) (keys : List String)
    (hnd : (es.map Prod.fst).Nodup) :
    remove_keys_if_exists (PyVal.dict es) keys
      = PyVal.dict (es.filter (fun p => !(keys.contains p.1))) := by
  rw [remove_keys_if_exists, removeKeys_eq_filter keys es hnd]

/-- `data.pop(key, None)` is a no-op when the key is absent: nothing is
raised and the dict is unchanged. -/
theorem popIfExists_absent (es : List (String × PyVal)) (k : String)
    (h : hasKeyR es k = false) : popIfExists es k = es := by
  refine List.eraseP_of_forall_not ?_
  intro p hp hpk
  have htrue : es.any (fun q => q.1 == k) = true :=
    List.any_eq_true.mpr ⟨p, hp, hpk⟩
  rw [hasKeyR, htrue] at h
  exact Bool.noConfusion h


theorem remove_keys_list_eq (items : List PyVal) (keys : List String) :
    remove_keys_if_exists (PyVal.list items) keys
      = PyVal.list (items.map (removeKeysItem keys)) := rfl

/-- Well-formedness of the dicts reached by `remove_keys_if_exists` is kept. -/
theorem pyWF_remove (v : PyVal) (keys : List String) (h : pyWF v = true) :
    pyWF (remove_keys_if_exists v keys) = true := by
  cases v with
  | dict es =>
    have hnd : (es.map Prod.fst).Nodup := by simpa [pyWF] using h
    rw [remove_keys_dict_eq es keys hnd, pyWF]
    simpa using keysNodup_filter hnd _
  | list items =>
    rw [remove_keys_list_eq, pyWF, List.all_eq_true]
    rw [pyWF, List.all_eq_true] at h
    intro x hx
    obtain ⟨item, hitem, rfl⟩ := List.mem_map.mp hx
    cases item with
    | dict es =>
      have hnd : (es.map Prod.fst).Nodup := by simpa using h _ hitem
      rw [removeKeysItem, removeKeys_eq_filter keys es hnd]
      simpa using keysNodup_filter hnd _
    | str s => rfl
    | num n => rfl
    | bool b => rfl
    | null => rfl
    | list l => rfl
  | str s => exact h
  | num n => exact h
  | bool b => exact h
  | null => exact h

/-- Filtering with the same predicate twice is filtering once. -/
theorem filter_idem {β : Type} (q : β → Bool) (l : List β) :
    (l.filter q).filter q = l.filter q := by
  rw [List.filter_filter]
  exact List.filter_congr (fun b _ => Bool.and_self (q b))

/-- `remove_keys_if_exists` is idempotent on well-formed values. -/
theorem remove_keys_idem (v : PyVal) (keys : List String)
    (h : pyWF v = true) :
    remove_keys_if_exists (remove_keys_if_exists v keys) keys
      = remove_keys_if_exists v keys := by
  cases v with
  | dict es =>
    have hnd : (es.map Prod.fst).Nodup := by simpa [pyWF] using h
    have hnd1 := keysNodup_filter hnd (fun p => !(keys.contains p.1))
    rw [remove_keys_dict_eq es keys hnd,
      remove_keys_dict_eq _ keys hnd1, filter_idem]
  | list items =>
    rw [pyWF, List.all_eq_true] at h
    rw [remove_keys_list_eq, remove_keys_list_eq, List.map_map]
    congr 1
    refine List.map_congr_left ?_
    intro item hitem
    cases item with
    | dict es =>
      have hnd : (es.map Prod.fst).Nodup := by simpa using h _ hitem
      have hnd1 := keysNodup_filter hnd (fun p => !(keys.contains p.1))
      simp only [Function.comp_apply, removeKeysItem,
        removeKeys_eq_filter keys es hnd, removeKeys_eq_filter keys _ hnd1,
        filter_idem]
    | str s => rfl
    | num n => rfl
    | bool b => rfl
    | null => rfl
    | list l => rfl
  | str s => rfl
  | num n => rfl
  | bool b => rfl
  | null => rfl

/-- Claim C7: `remove_keys_if_exists` removes each listed key from a dict
input, removes them from every dict element of a list input while leaving
non-dict elements untouched, returns inputs of any other type unchanged, and
an absent key is silently skipped (nothing is raised; the Python dicts are
well-formed, i.e. hold no key twice). -/
theorem remove_keys_if_exists_spec (data : PyVal) (keys_to_remove : List String)
    (h : pyWF data = true) :
    remove_keys_if_exists data keys_to_remove
      = (match data with
         | PyVal.dict es =>
             PyVal.dict (es.filter (fun p => !(keys_to_remove.contains p.1)))
         | PyVal.list items =>
             PyVal.list (items.map (fun item =>
               match item with
               | PyVal.dict es =>
                   PyVal.dict
                     (es.filter (fun p => !(keys_to_remove.contains p.1)))
               | other => other))
         | other => other)
    ∧ ∀ (es : List (String × PyVal)) (k : String),
        hasKeyR es k = false → popIfExists es k = es := by
  refine ⟨?_, popIfExists_absent⟩
  cases data with
  | dict es =>
    exact remove_keys_dict_eq es keys_to_remove (by simpa [pyWF] using h)
  | list items =>
    rw [pyWF, List.all_eq_true] at h
    rw [remove_keys_list_eq]
    congr 1
    refine List.map_congr_left ?_
    intro item hitem
    cases item with
    | dict es =>
      have hnd : (es.map Prod.fst).Nodup := by simpa using h _ hitem
      rw [removeKeysItem, removeKeys_eq_filter keys_to_remove es hnd]
    | str s => rfl
    | num n => rfl
    | bool b => rfl
    | null => rfl
    | list l => rfl
  | str s => rfl
  | num n => rfl
  | bool b => rfl
  | null => rfl

/-- Witness for C7 on a concrete mixed list. -/
theorem remove_keys_if_exists_spec_witness :
    remove_keys_if_exists
      (PyVal.list [PyVal.dict [("a", PyVal.num 1), ("b", PyVal.num 2)],
        PyVal.num 9]) ["a", "zz"]
      = PyVal.list [PyVal.dict [("b", PyVal.num 2)], PyVal.num 9]
    ∧ popIfExists [("b", PyVal.num 2)] "zz" = [("b", PyVal.num 2)] := by
  have h := remove_keys_if_exists_spec
    (PyVal.list [PyVal.dict [("a", PyVal.num 1), ("b", PyVal.num 2)],
      PyVal.num 9]) ["a", "zz"] rfl
  exact ⟨h.1, h.2 _ _ rfl⟩


/-! ### Reference-level proofs for `remove_keys_if_exists` -/

theorem heapGet_update_self (h : Heap) (a : Nat) (v w : PyVal)
    (hb : heapGet h a = Option.some w) :
    heapGet (heapUpdate h a v) a = Option.some v := by
  induction h with
  | nil => simp [heapGet] at hb
  | cons p t ih =>
    obtain ⟨k, x⟩ := p
    rw [heapUpdate, List.map_cons]
    by_cases hk : k = a
    · subst hk
      rw [if_pos rfl]
      simp [heapGet, List.lookup]
    · rw [if_neg hk]
      rw [heapGet, List.lookup] at hb ⊢
      rw [show (a == k) = false by simpa using Ne.symm hk] at hb ⊢
      exact ih hb

theorem heapGet_update_ne (h : Heap) (a b : Nat) (v : PyVal) (hne : b ≠ a) :
    heapGet (heapUpdate h a v) b = heapGet h b := by
  induction h with
  | nil => rfl
  | cons p t ih =>
    obtain ⟨k, x⟩ := p
    rw [heapUpdate, List.map_cons]
    by_cases hk : k = a
    · subst hk
      rw [if_pos rfl]
      rw [heapGet, heapGet, List.lookup, List.lookup]
      rw [show (b == k) = false by simpa using hne]
      exact ih
    · rw [if_neg hk]
      rw [heapGet, heapGet, List.lookup, List.lookup]
      cases hbk : (b == k) with
      | true => rfl
      | false => exact ih

theorem heapUpdate_update (h : Heap) (a : Nat) (v w : PyVal) :
    heapUpdate (heapUpdate h a v) a w = heapUpdate h a w := by
  rw [heapUpdate, heapUpdate, heapUpdate, List.map_map]
  refine List.map_congr_left ?_
  intro p _
  by_cases hp : p.1 = a <;> simp [hp]

/-- Claim C10: on a reference, `remove_keys_if_exists` returns the very
address it was given, its only effect on the store is replacing the object
at that address by its reshaped value, and (on well-formed Python data,
whose dicts hold no key twice) running it a second time with the same key
list changes nothing. -/
theorem remove_keys_if_exists_ref_spec (h : Heap) (addr : Nat)
    (keys_to_remove : List String) :
    (remove_keys_if_exists_ref h addr keys_to_remove).2 = addr
    ∧ (∀ a, a ≠ addr →
        heapGet (remove_keys_if_exists_ref h addr keys_to_remove).1 a
          = heapGet h a)
    ∧ (∀ v, heapGet h addr = Option.some v →
        heapGet (remove_keys_if_exists_ref h addr keys_to_remove).1 addr
          = Option.some (remove_keys_if_exists v keys_to_remove))
    ∧ ((∀ v, heapGet h addr = Option.some v → pyWF v = true) →
        remove_keys_if_exists_ref
            (remove_keys_if_exists_ref h addr keys_to_remove).1 addr
            keys_to_remove
          = remove_keys_if_exists_ref h addr keys_to_remove) := by
  cases hv : heapGet h addr with
  | none =>
    have href : remove_keys_if_exists_ref h addr keys_to_remove = (h, addr) := by
      rw [remove_keys_if_exists_ref, hv]
    rw [href]
    refine ⟨rfl, fun a _ => rfl, fun v hv1 => Option.noConfusion hv1,
      fun _ => ?_⟩
    show remove_keys_if_exists_ref h addr keys_to_remove = (h, addr)
    exact href
  | some v =>
    have href : remove_keys_if_exists_ref h addr keys_to_remove
        = (heapUpdate h addr (remove_keys_if_exists v keys_to_remove), addr) := by
      rw [remove_keys_if_exists_ref, hv]
    rw [href]
    refine ⟨rfl, fun a hne => heapGet_update_ne h addr a _ hne,
      fun w hw => ?_, fun hwf => ?_⟩
    · have hvw : v = w := Option.some_inj.mp hw
      subst hvw
      exact heapGet_update_self h addr _ v hv
    · have hWF : pyWF v = true := hwf v rfl
      have hget := heapGet_update_self h addr
        (remove_keys_if_exists v keys_to_remove) v hv
      have href2 : remove_keys_if_exists_ref
            (heapUpdate h addr (remove_keys_if_exists v keys_to_remove)) addr
            keys_to_remove
          = (heapUpdate
              (heapUpdate h addr (remove_keys_if_exists v keys_to_remove)) addr
              (remove_keys_if_exists
                (remove_keys_if_exists v keys_to_remove) keys_to_remove),
             addr) := by
        rw [remove_keys_if_exists_ref, hget]
      show remove_keys_if_exists_ref
          (heapUpdate h addr (remove_keys_if_exists v keys_to_remove)) addr
          keys_to_remove
        = (heapUpdate h addr (remove_keys_if_exists v keys_to_remove), addr)
      rw [href2, remove_keys_idem v keys_to_remove hWF, heapUpdate_update]

/-- Witness for C10 on a concrete two-object store. -/
theorem remove_keys_if_exists_ref_spec_witness :
    (remove_keys_if_exists_ref
        [(0, PyVal.dict [("a", PyVal.num 1), ("b", PyVal.num 2)]),
         (1, PyVal.str "other")] 0 ["a"]).2 = 0
    ∧ heapGet (remove_keys_if_exists_ref
        [(0, PyVal.dict [("a", PyVal.num 1), ("b", PyVal.num 2)]),
         (1, PyVal.str "other")] 0 ["a"]).1 1 = Option.some (PyVal.str "other")
    ∧ remove_keys_if_exists_ref
        (remove_keys_if_exists_ref
          [(0, PyVal.dict [("a", PyVal.num 1), ("b", PyVal.num 2)]),
           (1, PyVal.str "other")] 0 ["a"]).1 0 ["a"]
      = remove_keys_if_exists_ref
          [(0, PyVal.dict [("a", PyVal.num 1), ("b", PyVal.num 2)]),
           (1, PyVal.str "other")] 0 ["a"] := by
  have h := remove_keys_if_exists_ref_spec
    [(0, PyVal.dict [("a", PyVal.num 1), ("b", PyVal.num 2)]),
     (1, PyVal.str "other")] 0 ["a"]
  exact ⟨h.1, h.2.1 1 (by decide),
    h.2.2.2 (fun v hv => by cases hv; rfl)⟩


/-! ### `user_profile_statistics` proofs -/





theorem upsActivitiesFields_eq (m prev : UserMetrics)
    (ltRes : Except Unit LifetimeTotalsData) :
    upsActivitiesFields m prev ltRes = statsNum (mkPeriodTotals m) := rfl

theorem upsLast12Fields_eq (m prev : UserMetrics)
    (ltRes : Except Unit LifetimeTotalsData) :
    upsLast12Fields m prev ltRes = statsNum (mkPeriodTotals prev) := rfl

/-- The two period dicts satisfy the kilometre/hour conditional of C1. -/
theorem kmHourCond_mkPeriodTotals (m : UserMetrics) :
    kmHourCond (statsNum (mkPeriodTotals m)) := by
  by_cases h1 : (1000 : ℚ) ≤ m.totalDistance <;>
    by_cases h2 : (3600 : ℚ) ≤ m.totalDuration <;>
      simp [mkPeriodTotals, statsNum, kmHourCond, hasKeyS, numAt, atLeastAt,
        h1, h2, List.lookup]


/-- Counterexample to claim C1 as stated: when the lifetime-totals response
reports a total distance of 500 m, the returned inner `lifetime_totals`
sub-object still contains `total_distance_km` although `total_distance` is
below 1000, so not every statistics sub-object satisfies the kilometre
threshold iff. -/
theorem C1_km_iff_counterexample :
    ¬ C1Claim ⟨0, 0, 0, 0, 0⟩ ⟨0, 0, 0, 0, 0⟩
        (Except.ok ⟨500, 0, 0, 0, 0, 0, 0⟩) := by decide

/-- Claim C1 as amended: the kilometre/hour threshold iff holds for the
`activities` and `last_12_months` sub-objects; the inner `lifetime_totals`
sub-object is empty when the third call fails and otherwise always contains
`total_distance_km` and `total_wellness_distance_km` regardless of
magnitude, and never a duration or hours field. -/
theorem user_profile_statistics_km_iff_amended (m prev : UserMetrics)
    (ltRes : Except Unit LifetimeTotalsData) :
    kmHourCond (upsActivitiesFields m prev ltRes)
    ∧ kmHourCond (upsLast12Fields m prev ltRes)
    ∧ (match ltRes with
       | Except.ok lt =>
          upsLifetimeFields m prev ltRes = statsNum (mkLifetimeTotals lt)
          ∧ hasKeyS (upsLifetimeFields m prev ltRes) "total_distance_km" = true
          ∧ hasKeyS (upsLifetimeFields m prev ltRes)
              "total_wellness_distance_km" = true
          ∧ hasKeyS (upsLifetimeFields m prev ltRes) "total_duration" = false
          ∧ hasKeyS (upsLifetimeFields m prev ltRes) "total_duration_hours"
              = false
       | Except.error _ => upsLifetimeFields m prev ltRes = []) := by
  refine ⟨?_, ?_, ?_⟩
  · rw [upsActivitiesFields_eq]
    exact kmHourCond_mkPeriodTotals m
  · rw [upsLast12Fields_eq]
    exact kmHourCond_mkPeriodTotals prev
  · cases ltRes with
    | error e => rfl
    | ok lt => exact ⟨rfl, rfl, rfl, rfl, rfl⟩

/-- Claim C3: a failing lifetime-totals call yields an empty inner
`lifetime_totals` sub-object, while the `activities` and `last_12_months`
sections are exactly the ones a successful run would return. -/
theorem user_profile_statistics_error_fallback (m prev : UserMetrics)
    (e : Unit) (lt : LifetimeTotalsData) :
    upsLifetimeFields m prev (Except.error e) = []
    ∧ upsActivitiesFields m prev (Except.error e)
        = upsActivitiesFields m prev (Except.ok lt)
    ∧ upsLast12Fields m prev (Except.error e)
        = upsLast12Fields m prev (Except.ok lt) :=
  ⟨rfl, rfl, rfl⟩

/-- Claim C6: the aggregator merges the three calls into a dict with exactly
the top-level keys `lifetime_totals` and `last_12_months`; `lifetime_totals`
has exactly the sub-keys `activities` (from the first call) and
`lifetime_totals` (from the third call), and `last_12_months` comes from the
second call. -/
theorem user_profile_statistics_merge (m prev : UserMetrics)
    (ltRes : Except Unit LifetimeTotalsData) :
    (topFields (user_profile_statistics m prev ltRes)).map Prod.fst
      = ["lifetime_totals", "last_12_months"]
    ∧ (subObjAt (topFields (user_profile_statistics m prev ltRes))
        "lifetime_totals").map Prod.fst = ["activities", "lifetime_totals"]
    ∧ upsActivitiesFields m prev ltRes = statsNum (mkPeriodTotals m)
    ∧ upsLast12Fields m prev ltRes = statsNum (mkPeriodTotals prev)
    ∧ upsLifetimeFields m prev ltRes
        = statsNum (match ltRes with
                    | Except.ok lt => mkLifetimeTotals lt
                    | Except.error _ => []) := by
  cases ltRes <;> exact ⟨rfl, rfl, rfl, rfl, rfl⟩

/-! ### `requires_garth_session` proofs -/


/-- Counterexample to claim C2 as stated: with `GARTH_TOKEN` present but
equal to the empty string, the wrapper returns the error message and never
loads the session or calls the tool body. -/
theorem C2_present_token_counterexample : ¬ C2Claim := by
  intro h
  obtain ⟨t, ht, heq⟩ := h (Option.some "") (fun _ => 0) rfl
  have ht1 : t = "" := (Option.some_inj.mp ht).symm
  subst ht1
  have : requires_garth_session (Option.some "") (fun _ => (0 : Nat))
      = ⟨[], Sum.inl garthTokenMsg⟩ := rfl
  rw [this] at heq
  exact List.noConfusion (congrArg WrapperResult.events heq)

/-- Claim C2 as amended: for every tool, when `GARTH_TOKEN` is present and
truthy (non-empty) the wrapper first loads the token into the client session
and only then invokes the wrapped function, returning its result; when it is
unset or falsy the wrapper returns the plain message string, performs no
session load and never invokes the wrapped function (so no remote call is
made). -/
theorem requires_garth_session_spec {α : Type} (env : Option String)
    (func : Unit → α) :
    (tokenTruthy env = true →
      ∃ t, env = Option.some t ∧
        requires_garth_session env func
          = ⟨[SessionEvent.loads t, SessionEvent.call], Sum.inr (func ())⟩)
    ∧ (tokenTruthy env = false →
        requires_garth_session env func = ⟨[], Sum.inl garthTokenMsg⟩) := by
  cases env with
  | none => exact ⟨fun h => Bool.noConfusion h, fun _ => rfl⟩
  | some t =>
    by_cases ht : t = ""
    · subst ht
      exact ⟨fun h => Bool.noConfusion h, fun _ => rfl⟩
    · refine ⟨fun _ => ⟨t, rfl, ?_⟩, fun h => ?_⟩
      · rw [requires_garth_session, if_neg (by simpa using ht)]
      · rw [tokenTruthy] at h
        simp [ht] at h

/-- Witness for the amended C2 at a concrete token and at an unset
variable. -/
theorem requires_garth_session_spec_witness :
    requires_garth_session (Option.some "tok") (fun _ => (42 : Nat))
      = ⟨[SessionEvent.loads "tok", SessionEvent.call], Sum.inr 42⟩
    ∧ requires_garth_session Option.none (fun _ => (0 : Nat))
      = ⟨[], Sum.inl garthTokenMsg⟩ := by
  constructor
  · obtain ⟨t, ht, heq⟩ :=
      (requires_garth_session_spec (Option.some "tok")
        (fun _ => (42 : Nat))).1 rfl
    have ht1 : t = "tok" := (Option.some_inj.mp ht).symm
    subst ht1
    exact heq
  · exact (requires_garth_session_spec Option.none (fun _ => (0 : Nat))).2 rfl

/-- Claim C9: an empty-string `GARTH_TOKEN` behaves exactly like an unset
one: the wrapper result is the same, it is the error message, and no load or
call event happens. -/
theorem requires_garth_session_empty_token {α : Type} (func : Unit → α) :
    requires_garth_session (Option.some "") func
      = requires_garth_session Option.none func
    ∧ requires_garth_session (Option.some "") func
        = ⟨[], Sum.inl garthTokenMsg⟩ :=
  ⟨rfl, rfl⟩

/-! ### `nightly_sleep` proofs -/

/-- Claim C5: with `sleep_movement=False` (the default) every returned night
has its `sleep_movement` attribute deleted while the rest of the night and
the order and number of nights are unchanged; with `sleep_movement=True`
the records are returned exactly as loaded. -/
theorem nightly_sleep_spec {α μ : Type} (sleep_data : List (SleepNight α μ)) :
    nightly_sleep sleep_data true = sleep_data
    ∧ (nightly_sleep sleep_data false).map (fun n => n.summary)
        = sleep_data.map (fun n => n.summary)
    ∧ (nightly_sleep sleep_data false).all
        (fun n => n.sleep_movement.isNone) = true
    ∧ (nightly_sleep sleep_data false).length = sleep_data.length := by
  refine ⟨rfl, ?_, ?_, ?_⟩
  · rw [nightly_sleep, if_neg (by simp), List.map_map]
    refine List.map_congr_left ?_
    intro n _
    rw [Function.comp_apply, scrubNight]
    by_cases h : n.sleep_movement.isSome <;> simp [h]
  · rw [nightly_sleep, if_neg (by simp), List.all_eq_true]
    intro n hn
    obtain ⟨n0, _, rfl⟩ := List.mem_map.mp hn
    rw [scrubNight]
    by_cases h : n0.sleep_movement.isSome
    · simp [h]
    · simp only [h, if_false]
      simpa [Option.isNone_iff_eq_none] using
        Option.not_isSome_iff_eq_none.mp (by simpa using h)
  · rw [nightly_sleep, if_neg (by simp), List.length_map]

end GarthMcp
